import Mathlib

/-!
Shallow embedding of json2srt (`main.go`): the data model (`Timestamp`,
`Token`, `Segment`, `WhisperOutput`), the timestamp extractor
(`extractTimestamps`), the SRT renderer (the segment loop of
`processFile`), and the worker loop (`worker`), together with theorems
settling the specification's claims about them.

Conventions of the embedding:
- Go's nil slice for `Transcription` (JSON key missing or null) is
  `Option.none`; a present-but-empty array is `some []`.
- File I/O of `processFile` (read, write) is modelled by boolean
  outcome fields on a task record; the pure transformation in between
  is embedded exactly.
- Go's `strings.HasPrefix` and `strings.TrimSpace` are modelled over
  the character list of the string (`hasMarker`, `trimSpace`), so that
  every definition evaluates by kernel reduction; the claims only
  involve ASCII text and whitespace, on which these agree with Go.
-/

/-- `Timestamp` from main.go: start (`from`) and end (`to`) timecodes,
treated as opaque strings. -/
structure Timestamp where
  From : String
  To : String
  deriving Repr, DecidableEq

/-- `Token` from main.go: one word or marker with its own timing. -/
structure Token where
  Text : String
  Timestamps : Timestamp
  deriving Repr, DecidableEq

/-- `Segment` from main.go: segment-level timing, text, and tokens. -/
structure Segment where
  Timestamps : Timestamp
  Text : String
  Tokens : List Token
  deriving Repr, DecidableEq

/-- `WhisperOutput` from main.go. `none` models the nil slice Go
produces when the `transcription` key is absent or null; `some []`
models an empty-but-present array. -/
structure WhisperOutput where
  Transcription : Option (List Segment)
  deriving Repr, DecidableEq

/-- `strings.HasPrefix(s, "[_")` of Go: whether the text starts with
the fixed two-character noise-marker prefix `[_`. -/
def hasMarker (s : String) : Bool :=
  ("[_".data).isPrefixOf s.data

/-- `strings.TrimSpace` of Go: strip leading and trailing whitespace
characters. -/
def trimSpace (s : String) : String :=
  String.mk
    (((s.data.dropWhile Char.isWhitespace).reverse.dropWhile
      Char.isWhitespace).reverse)

/-- The token filter used by both scans in `extractTimestamps`
(main.go line 49 and 60): the token text must not start with the
noise-marker prefix `[_` and must be non-empty. -/
def tokenOk (t : Token) : Bool :=
  !(hasMarker t.Text) && t.Text != ""

/-- The forward scan of `extractTimestamps` (main.go lines 48-55):
the `From` of the first token passing `tokenOk`, or the zero value
`""` when the scan finds none. -/
def tokenStart (segment : Segment) : String :=
  match segment.Tokens.find? tokenOk with
  | some t => t.Timestamps.From
  | none => ""

/-- The reverse scan of `extractTimestamps` (main.go lines 58-65):
the `To` of the last token passing `tokenOk` (the first of the
reversed list), or `""` when the scan finds none. -/
def tokenEnd (segment : Segment) : String :=
  match segment.Tokens.reverse.find? tokenOk with
  | some t => t.Timestamps.To
  | none => ""

/-- `extractTimestamps` from main.go lines 43-74. `hasValidTokens`
becomes true when either scan finds a token. If no valid token was
found, or the resolved start or end is empty, both bounds are replaced
by the segment-level pair. Returns (startTime, endTime,
hasValidTokens). -/
def extractTimestamps (segment : Segment) : String × String × Bool :=
  let startTime : String := tokenStart segment
  let endTime : String := tokenEnd segment
  let hasValidTokens : Bool :=
    (segment.Tokens.find? tokenOk).isSome ||
      (segment.Tokens.reverse.find? tokenOk).isSome
  if !hasValidTokens || startTime = "" || endTime = "" then
    (segment.Timestamps.From, segment.Timestamps.To, hasValidTokens)
  else
    (startTime, endTime, hasValidTokens)

/-- One SRT block as written by main.go lines 117-119: the index line
(`%d\n` with `i+1`), the timing line (`%s --> %s\n`), and the text
line followed by the blank-line terminator (`%s\n\n`). -/
def renderBlock (i : Nat) (startTime endTime text : String) : String :=
  toString (i + 1) ++ "\n" ++ startTime ++ " --> " ++ endTime ++ "\n" ++
    text ++ "\n\n"

/-- The segment loop of `processFile` (main.go lines 104-120), with
`i` the zero-based position of the head segment in the document:
resolve timing, skip when either bound is empty, otherwise append one
block whose text is the segment text trimmed. -/
def renderFrom : Nat → List Segment → String
  | _, [] => ""
  | i, segment :: rest =>
    let r := extractTimestamps segment
    if r.1 = "" || r.2.1 = "" then
      renderFrom (i + 1) rest
    else
      renderBlock i r.1 r.2.1 (trimSpace segment.Text) ++
        renderFrom (i + 1) rest

/-- The error of main.go line 98: transcription list structurally
absent (`MalformedInputError` of the spec). -/
inductive RenderError where
  | MalformedInput
  deriving Repr, DecidableEq

/-- The rendering part of `processFile` (main.go lines 97-123): error
when `Transcription` is nil, otherwise the concatenation of the
emitted blocks (the SRT content, before the BOM is prepended). -/
def render (doc : WhisperOutput) : Except RenderError String :=
  match doc.Transcription with
  | none => Except.error RenderError.MalformedInput
  | some segs => Except.ok (renderFrom 0 segs)

/-- The index numbers written by the segment loop of `processFile`
(`i+1` at main.go line 117), listed in emission order: a segment whose
resolved timing has an empty bound contributes no number, every other
segment contributes `i+1` where `i` is its zero-based position. -/
def emittedIndices : Nat → List Segment → List Nat
  | _, [] => []
  | i, segment :: rest =>
    let r := extractTimestamps segment
    if r.1 = "" || r.2.1 = "" then
      emittedIndices (i + 1) rest
    else
      (i + 1) :: emittedIndices (i + 1) rest

/-- A `Caption` of the spec, as derived by `processFile`: the index
written on the first line, the resolved start and end, and the trimmed
text. -/
structure Caption where
  index : Nat
  range : Timestamp
  text : String
  deriving Repr, DecidableEq

/-- The captions emitted by the segment loop of `processFile`, in
emission order, with `i` the zero-based position of the head segment;
skipped segments contribute nothing. -/
def captionsFrom : Nat → List Segment → List Caption
  | _, [] => []
  | i, segment :: rest =>
    let r := extractTimestamps segment
    if r.1 = "" || r.2.1 = "" then
      captionsFrom (i + 1) rest
    else
      { index := i + 1, range := { From := r.1, To := r.2.1 },
        text := trimSpace segment.Text } :: captionsFrom (i + 1) rest

/-- The exact text of one caption block as the spec describes it:
index line, `start --> end` line, trimmed text line, terminating
blank line. -/
def blockString (c : Caption) : String :=
  toString c.index ++ "\n" ++ c.range.From ++ " --> " ++ c.range.To ++
    "\n" ++ c.text ++ "\n\n"

/-- The per-file error kinds of `processFile` (main.go lines 87-127):
read failure, JSON parse failure, missing transcription list, write
failure. -/
inductive FileError where
  | ReadErr
  | ParseErr
  | MalformedErr
  | WriteErr
  deriving Repr, DecidableEq

/-- One file's task as `processFile` sees it. The OS-level outcomes
(whether the read succeeds, whether the bytes parse, whether the write
succeeds) are modelled as fields; the document is the parse result. -/
structure FileTask where
  readOk : Bool
  parseOk : Bool
  doc : WhisperOutput
  writeOk : Bool
  deriving Repr, DecidableEq

/-- `processFile` (main.go lines 78-130) over a `FileTask`, with the
context never cancelled: read, parse, render (nil transcription is the
malformed-input error), write; the first failing stage's error is
returned, otherwise the rendered content. -/
def processFileTask (t : FileTask) : Except FileError String :=
  if !t.readOk then Except.error FileError.ReadErr
  else if !t.parseOk then Except.error FileError.ParseErr
  else
    match render t.doc with
    | Except.error _ => Except.error FileError.MalformedErr
    | Except.ok s =>
      if !t.writeOk then Except.error FileError.WriteErr
      else Except.ok s

/-- The job loop of `worker` (main.go lines 133-149), with the context
never cancelled, draining the sequence of jobs this worker receives
from the channel: each job is processed with `processFileTask`; an
error is logged (recorded in the result list) and the loop continues
with the next job. -/
def workerRun : List FileTask → List (Except FileError String)
  | [] => []
  | t :: rest => processFileTask t :: workerRun rest

/-- Serialization of a caption list as the spec describes the output
blob: the blocks in emission order, concatenated, each already ending
in its blank-line terminator, with nothing after the final block. -/
def concatBlocks : List Caption → String
  | [] => ""
  | c :: rest => blockString c ++ concatBlocks rest

/-! Concrete inputs used by counterexamples and witnesses. -/

/-- A noise-marker token, as whisper emits them. -/
def noiseTok : Token :=
  { Text := "[_TT_500]", Timestamps := { From := "t0a", To := "t0b" } }

/-- An ordinary speech token. -/
def helloTok : Token :=
  { Text := "hello", Timestamps := { From := "t1a", To := "t1b" } }

/-- A second ordinary speech token. -/
def worldTok : Token :=
  { Text := "world", Timestamps := { From := "t2a", To := "t2b" } }

/-- A segment whose first token is noise and whose speech tokens carry
timing (scenario A of the spec). -/
def segA : Segment :=
  { Timestamps := { From := "sA", To := "sB" },
    Text := " hello world ", Tokens := [noiseTok, helloTok, worldTok] }

/-- A segment whose only token is a noise marker, with usable
segment-level timing. -/
def noiseOnlySeg : Segment :=
  { Timestamps := { From := "s1", To := "s2" },
    Text := "n", Tokens := [noiseTok] }

/-- A segment with no tokens and empty segment-level timing: timing
resolution exhausts every source and the renderer skips it. -/
def badSeg : Segment :=
  { Timestamps := { From := "", To := "" }, Text := "x", Tokens := [] }

/-- A segment with no tokens but usable segment-level timing. -/
def goodSeg : Segment :=
  { Timestamps := { From := "00:00:01,000", To := "00:00:02,000" },
    Text := "hi", Tokens := [] }

/-- A segment whose own text still contains a noise-marker tag while
its only token is clean speech. -/
def noisyTextSeg : Segment :=
  { Timestamps := { From := "sA", To := "sB" },
    Text := "[_TT_500] hi",
    Tokens := [{ Text := "hi", Timestamps := { From := "a", To := "b" } }] }

/-- A segment with resolvable timing whose text is whitespace only. -/
def blankTextSeg : Segment :=
  { Timestamps := { From := "a", To := "b" }, Text := "   ", Tokens := [] }

/-- A file task on which every I/O stage succeeds. -/
def okTask : FileTask :=
  { readOk := true, parseOk := true,
    doc := { Transcription := some [goodSeg] }, writeOk := true }

/-- A file task whose read fails. -/
def readFailTask : FileTask :=
  { readOk := false, parseOk := true,
    doc := { Transcription := some [goodSeg] }, writeOk := true }

/-! Helper lemmas (shared). -/

/-- When the forward scan finds nothing, the token-derived start is
the zero value. -/
theorem tokenStart_of_none {seg : Segment}
    (h : seg.Tokens.find? tokenOk = none) : tokenStart seg = "" := by
  simp [tokenStart, h]

/-- An empty token-derived start triggers the all-or-nothing fallback:
both returned bounds are the segment-level ones. -/
theorem extract_pair_of_start_empty {seg : Segment}
    (h : tokenStart seg = "") :
    (extractTimestamps seg).1 = seg.Timestamps.From ∧
      (extractTimestamps seg).2.1 = seg.Timestamps.To := by
  simp [extractTimestamps, h]

/-- An empty token-derived end triggers the all-or-nothing fallback:
both returned bounds are the segment-level ones. -/
theorem extract_pair_of_end_empty {seg : Segment}
    (h : tokenEnd seg = "") :
    (extractTimestamps seg).1 = seg.Timestamps.From ∧
      (extractTimestamps seg).2.1 = seg.Timestamps.To := by
  simp [extractTimestamps, h]

/-- C2: if no token of the segment is both non-empty and free of the
noise-marker prefix, or the token-derived start, or the token-derived
end, is the empty string, then `extractTimestamps` returns exactly the
segment-level pair — never a pair mixing a token-derived bound with a
segment-derived one. -/
theorem C2_all_or_nothing_fallback (seg : Segment)
    (h : (∀ t ∈ seg.Tokens, tokenOk t = false) ∨
      tokenStart seg = "" ∨ tokenEnd seg = "") :
    (extractTimestamps seg).1 = seg.Timestamps.From ∧
      (extractTimestamps seg).2.1 = seg.Timestamps.To := by
  rcases h with h | h | h
  · have hn : seg.Tokens.find? tokenOk = none := by
      rw [List.find?_eq_none]
      intro t ht
      simp [h t ht]
    exact extract_pair_of_start_empty (tokenStart_of_none hn)
  · exact extract_pair_of_start_empty h
  · exact extract_pair_of_end_empty h

/-- Witness for C2 at a concrete segment whose only token is a noise
marker: the resolved pair is the segment-level pair. -/
theorem C2_all_or_nothing_fallback_witness :
    (extractTimestamps noiseOnlySeg).1 = noiseOnlySeg.Timestamps.From ∧
      (extractTimestamps noiseOnlySeg).2.1 = noiseOnlySeg.Timestamps.To :=
  C2_all_or_nothing_fallback noiseOnlySeg (Or.inl (by decide))

/-- C3: when the forward scan finds a first valid token and the
reverse scan finds a last valid token, and both carry non-empty
bounds, `extractTimestamps` returns the first one's `From` and the
last one's `To`. -/
theorem C3_token_derived_bounds (seg : Segment) (t1 t2 : Token)
    (h1 : seg.Tokens.find? tokenOk = some t1)
    (h2 : seg.Tokens.reverse.find? tokenOk = some t2)
    (hs : t1.Timestamps.From ≠ "") (he : t2.Timestamps.To ≠ "") :
    (extractTimestamps seg).1 = t1.Timestamps.From ∧
      (extractTimestamps seg).2.1 = t2.Timestamps.To := by
  simp [extractTimestamps, tokenStart, tokenEnd, h1, h2, hs, he]

/-- Witness for C3 on scenario A: first valid token `hello`, last
valid token `world`; the resolved pair is (t1a, t2b). -/
theorem C3_token_derived_bounds_witness :
    (extractTimestamps segA).1 = "t1a" ∧
      (extractTimestamps segA).2.1 = "t2b" :=
  C3_token_derived_bounds segA helloTok worldTok
    (by decide) (by decide) (by decide) (by decide)

/-- C5: rendering fails with the malformed-input error exactly when
the transcription list is structurally absent (the nil slice); a
present-but-empty list is valid and renders to the empty blob. -/
theorem C5_malformed_iff_absent (doc : WhisperOutput) :
    (render doc = Except.error RenderError.MalformedInput ↔
      doc.Transcription = none) ∧
    (doc.Transcription = some [] → render doc = Except.ok "") := by
  refine ⟨?_, ?_⟩
  · cases h : doc.Transcription <;> simp [render, h]
  · intro h
    simp [render, h, renderFrom]

/-- Witness for C5: the document with a present-but-empty segment list
renders to the empty blob. -/
theorem C5_malformed_iff_absent_witness :
    render { Transcription := some [] } = Except.ok "" :=
  (C5_malformed_iff_absent { Transcription := some [] }).2 rfl

/-- C6: the extractor is total and never fails — with no usable token
and empty segment-level fallback it returns the empty pair — and the
renderer reacts to an empty resolved bound by skipping the segment
(no caption emitted) while still succeeding on any present segment
list (no error raised). -/
theorem C6_extractor_never_fails :
    (∀ seg : Segment, (∀ t ∈ seg.Tokens, tokenOk t = false) →
      seg.Timestamps.From = "" → seg.Timestamps.To = "" →
      extractTimestamps seg = ("", "", false)) ∧
    (∀ (i : Nat) (seg : Segment) (rest : List Segment),
      ((extractTimestamps seg).1 = "" ∨ (extractTimestamps seg).2.1 = "") →
      renderFrom i (seg :: rest) = renderFrom (i + 1) rest ∧
        captionsFrom i (seg :: rest) = captionsFrom (i + 1) rest) ∧
    (∀ segs : List Segment,
      render { Transcription := some segs } = Except.ok (renderFrom 0 segs)) := by
  refine ⟨?_, ?_, fun segs => rfl⟩
  · intro seg hall h1 h2
    have hn : seg.Tokens.find? tokenOk = none := by
      rw [List.find?_eq_none]
      intro t ht
      simp [hall t ht]
    have hn' : seg.Tokens.reverse.find? tokenOk = none := by
      rw [List.find?_eq_none]
      intro t ht
      simp [hall t (List.mem_reverse.mp ht)]
    simp [extractTimestamps, tokenStart, tokenEnd, hn, hn', h1, h2]
  · intro i seg rest h
    rcases h with h | h <;>
      exact ⟨by simp [renderFrom, h], by simp [captionsFrom, h]⟩

/-- Witness for C6 at concrete segments: the fully-empty segment
resolves to the empty pair and is skipped without an error. -/
theorem C6_extractor_never_fails_witness :
    extractTimestamps badSeg = ("", "", false) ∧
      renderFrom 0 (badSeg :: [goodSeg]) = renderFrom 1 [goodSeg] ∧
      captionsFrom 0 (badSeg :: [goodSeg]) = captionsFrom 1 [goodSeg] ∧
      render { Transcription := some [badSeg] } =
        Except.ok (renderFrom 0 [badSeg]) :=
  ⟨C6_extractor_never_fails.1 badSeg (by intro t ht; cases ht) rfl rfl,
    (C6_extractor_never_fails.2.1 0 badSeg [goodSeg] (Or.inl (by decide))).1,
    (C6_extractor_never_fails.2.1 0 badSeg [goodSeg] (Or.inl (by decide))).2,
    C6_extractor_never_fails.2.2 [badSeg]⟩

/-- C8: rendering and timing resolution are pure functions of their
input: equal inputs give byte-identical outputs on every pair of
runs. -/
theorem C8_deterministic :
    (∀ d1 d2 : WhisperOutput, d1 = d2 → render d1 = render d2) ∧
      (∀ s1 s2 : Segment, s1 = s2 → extractTimestamps s1 = extractTimestamps s2) :=
  ⟨fun _ _ h => by rw [h], fun _ _ h => by rw [h]⟩

/-- Witness for C8 at a concrete document and segment. -/
theorem C8_deterministic_witness :
    render { Transcription := some [segA] } =
        render { Transcription := some [segA] } ∧
      extractTimestamps segA = extractTimestamps segA :=
  ⟨C8_deterministic.1 { Transcription := some [segA] }
      { Transcription := some [segA] } rfl,
    C8_deterministic.2 segA segA rfl⟩

/-- C9: the worker loop attempts every task — the result list has one
entry per job regardless of failures — and each task's outcome is a
function of that task alone, so a per-file error neither affects
another file's task nor aborts the run. -/
theorem C9_failure_isolation (jobs : List FileTask) :
    (workerRun jobs).length = jobs.length ∧
      (∀ k : Nat, (workerRun jobs)[k]? = (jobs[k]?).map processFileTask) := by
  induction jobs with
  | nil => exact ⟨rfl, fun k => by cases k <;> simp [workerRun]⟩
  | cons t rest ih =>
    refine ⟨by simpa [workerRun] using ih.1, fun k => ?_⟩
    cases k with
    | zero => simp [workerRun]
    | succ k => simpa [workerRun] using ih.2 k

/-- The segment loop's string output is exactly the serialization of
its caption list: each emitted caption contributes its block, in
order, with nothing in between or after. -/
theorem renderFrom_eq_concatBlocks (segs : List Segment) :
    ∀ i : Nat, renderFrom i segs = concatBlocks (captionsFrom i segs) := by
  induction segs with
  | nil => intro i; rfl
  | cons seg rest ih =>
    intro i
    simp only [renderFrom, captionsFrom]
    split
    · exact ih (i + 1)
    · simp only [concatBlocks, blockString, renderBlock, ih (i + 1)]

/-- C7: the rendered blob is exactly the concatenation, in emission
order, of one block per emitted caption — index line, timing line
`start --> end`, trimmed segment text, terminating blank line — with
no trailing content after the final block's terminator. -/
theorem C7_output_is_block_sequence (segs : List Segment) :
    render { Transcription := some segs } =
      Except.ok (concatBlocks (captionsFrom 0 segs)) :=
  congrArg Except.ok (renderFrom_eq_concatBlocks segs 0)

/-- C10: skipping depends only on the resolved timing pair, never on
the text: a segment with non-empty resolved bounds and whitespace-only
text still emits a caption, whose block carries an empty text line. -/
theorem C10_empty_text_still_emitted (i : Nat) (seg : Segment)
    (rest : List Segment) (htext : trimSpace seg.Text = "")
    (hs : (extractTimestamps seg).1 ≠ "")
    (he : (extractTimestamps seg).2.1 ≠ "") :
    captionsFrom i (seg :: rest) =
      { index := i + 1,
        range := { From := (extractTimestamps seg).1,
                   To := (extractTimestamps seg).2.1 },
        text := "" } :: captionsFrom (i + 1) rest ∧
    renderFrom i (seg :: rest) =
      renderBlock i (extractTimestamps seg).1 (extractTimestamps seg).2.1 "" ++
        renderFrom (i + 1) rest :=
  ⟨by simp [captionsFrom, htext, hs, he],
    by simp [renderFrom, htext, hs, he]⟩

/-- Witness for C10 at a concrete whitespace-only segment. -/
theorem C10_empty_text_still_emitted_witness :
    captionsFrom 0 (blankTextSeg :: []) =
      { index := 1,
        range := { From := (extractTimestamps blankTextSeg).1,
                   To := (extractTimestamps blankTextSeg).2.1 },
        text := "" } :: captionsFrom 1 [] ∧
    renderFrom 0 (blankTextSeg :: []) =
      renderBlock 0 (extractTimestamps blankTextSeg).1
          (extractTimestamps blankTextSeg).2.1 "" ++
        renderFrom 1 [] :=
  C10_empty_text_still_emitted 0 blankTextSeg []
    (by decide) (by decide) (by decide)

/-- Every emitted caption's text is the trimmed text of one of the
document's segments (taken verbatim, with no token filtering). -/
theorem captionsFrom_text_mem (segs : List Segment) :
    ∀ (i : Nat) (c : Caption), c ∈ captionsFrom i segs →
      ∃ seg, seg ∈ segs ∧ c.text = trimSpace seg.Text := by
  induction segs with
  | nil => intro i c hc; simp [captionsFrom] at hc
  | cons seg rest ih =>
    intro i c hc
    simp only [captionsFrom] at hc
    split at hc
    · obtain ⟨s, hs, ht⟩ := ih (i + 1) c hc
      exact ⟨s, List.mem_cons_of_mem _ hs, ht⟩
    · rcases List.mem_cons.mp hc with h | h
      · exact ⟨seg, List.mem_cons_self _ _, by rw [h]⟩
      · obtain ⟨s, hs, ht⟩ := ih (i + 1) c h
        exact ⟨s, List.mem_cons_of_mem _ hs, ht⟩

/-- Every number in the emitted index list is `k + 1` for the
zero-based position `k` of an emitted (non-skipped) segment. -/
theorem emittedIndices_mem (segs : List Segment) :
    ∀ (i n : Nat), n ∈ emittedIndices i segs →
      ∃ k seg, segs[k]? = some seg ∧ n = i + k + 1 ∧
        (extractTimestamps seg).1 ≠ "" ∧ (extractTimestamps seg).2.1 ≠ "" := by
  induction segs with
  | nil => intro i n h; simp [emittedIndices] at h
  | cons seg rest ih =>
    intro i n h
    simp only [emittedIndices] at h
    split at h
    case isTrue hc =>
      obtain ⟨k, s, hk, hn, h1, h2⟩ := ih (i + 1) n h
      exact ⟨k + 1, s, by simpa using hk, by omega, h1, h2⟩
    case isFalse hc =>
      rcases List.mem_cons.mp h with h | h
      · subst h
        simp only [Bool.or_eq_true, decide_eq_true_eq, not_or] at hc
        exact ⟨0, seg, by simp, by omega, hc.1, hc.2⟩
      · obtain ⟨k, s, hk, hn, h1, h2⟩ := ih (i + 1) n h
        exact ⟨k + 1, s, by simpa using hk, by omega, h1, h2⟩

/-- Every emitted index strictly exceeds the position counter it was
started from. -/
theorem emittedIndices_gt (segs : List Segment) (i n : Nat)
    (h : n ∈ emittedIndices i segs) : i < n := by
  obtain ⟨k, s, _, hn, _, _⟩ := emittedIndices_mem segs i n h
  omega

/-- The emitted index list is strictly increasing. -/
theorem emittedIndices_pairwise (segs : List Segment) :
    ∀ i : Nat, List.Pairwise (· < ·) (emittedIndices i segs) := by
  induction segs with
  | nil => intro i; simp [emittedIndices]
  | cons seg rest ih =>
    intro i
    simp only [emittedIndices]
    split
    · exact ih (i + 1)
    · refine List.Pairwise.cons ?_ (ih (i + 1))
      intro m hm
      have := emittedIndices_gt rest (i + 1) m hm
      omega

/-- The caption indices are exactly the emitted index numbers. -/
theorem captionsFrom_map_index (segs : List Segment) :
    ∀ i : Nat, (captionsFrom i segs).map Caption.index = emittedIndices i segs := by
  induction segs with
  | nil => intro i; rfl
  | cons seg rest ih =>
    intro i
    simp only [captionsFrom, emittedIndices]
    split
    · exact ih (i + 1)
    · simp [ih (i + 1)]

/-- C1 counterexample: in a two-segment document whose first segment
is skipped for unresolvable timing, the single emitted caption carries
index 2, so the emitted index sequence is not the contiguous sequence
starting at 1 that the claim requires. -/
theorem C1_contiguous_counterexample :
    emittedIndices 0 [badSeg, goodSeg] = [2] ∧
      emittedIndices 0 [badSeg, goodSeg] ≠
        List.range' 1 (emittedIndices 0 [badSeg, goodSeg]).length ∧
      render { Transcription := some [badSeg, goodSeg] } =
        Except.ok ("2\n00:00:01,000 --> 00:00:02,000\nhi\n\n") :=
  ⟨by decide, by decide, by rfl⟩

/-- C1 amended: the index of each emitted caption is `k + 1` for the
zero-based position `k` of its source segment in the document, so a
skipped segment does reserve its number; the emitted index sequence is
strictly increasing, but may start above 1 and may have gaps. -/
theorem C1_index_is_segment_position (i : Nat) (segs : List Segment) :
    List.Pairwise (· < ·) (emittedIndices i segs) ∧
      (captionsFrom i segs).map Caption.index = emittedIndices i segs ∧
      ∀ n ∈ emittedIndices i segs, ∃ k seg, segs[k]? = some seg ∧
        n = i + k + 1 ∧ (extractTimestamps seg).1 ≠ "" ∧
        (extractTimestamps seg).2.1 ≠ "" :=
  ⟨emittedIndices_pairwise segs i, captionsFrom_map_index segs i,
    fun n hn => emittedIndices_mem segs i n hn⟩

/-- Witness for C1 amended at the two-segment document: the emitted
index 2 comes from the segment at position 1. -/
theorem C1_index_is_segment_position_witness :
    List.Pairwise (· < ·) (emittedIndices 0 [badSeg, goodSeg]) ∧
      ∃ k seg, [badSeg, goodSeg][k]? = some seg ∧ 2 = 0 + k + 1 ∧
        (extractTimestamps seg).1 ≠ "" ∧ (extractTimestamps seg).2.1 ≠ "" :=
  ⟨(C1_index_is_segment_position 0 [badSeg, goodSeg]).1,
    (C1_index_is_segment_position 0 [badSeg, goodSeg]).2.2 2 (by decide)⟩

/-- C4 counterexample: a segment whose own text carries a noise-marker
tag emits a caption whose text still contains the tag — the renderer
trims the segment text but never filters noise tokens out of it. -/
theorem C4_noise_in_text_counterexample :
    (captionsFrom 0 [noisyTextSeg]).map Caption.text = ["[_TT_500] hi"] ∧
      hasMarker "[_TT_500] hi" = true ∧
      render { Transcription := some [noisyTextSeg] } =
        Except.ok ("1\na --> b\n[_TT_500] hi\n\n") :=
  ⟨by decide, by decide, by rfl⟩

/-- C4 amended: noise-marker tokens are excluded from timing
resolution — any token either scan selects is non-empty and free of
the noise prefix — but the caption text is the segment's own text,
trimmed and unfiltered, so it may contain a noise-marker tag. -/
theorem C4_noise_excluded_from_timing_only :
    (∀ (seg : Segment) (t : Token), seg.Tokens.find? tokenOk = some t →
      hasMarker t.Text = false ∧ t.Text ≠ "") ∧
    (∀ (seg : Segment) (t : Token),
      seg.Tokens.reverse.find? tokenOk = some t →
      hasMarker t.Text = false ∧ t.Text ≠ "") ∧
    (∀ (i : Nat) (segs : List Segment) (c : Caption),
      c ∈ captionsFrom i segs → ∃ seg, seg ∈ segs ∧ c.text = trimSpace seg.Text) := by
  refine ⟨?_, ?_, fun i segs c hc => captionsFrom_text_mem segs i c hc⟩
  · intro seg t h
    have h' := List.find?_some h
    simpa [tokenOk, Bool.and_eq_true, Bool.not_eq_true', bne_iff_ne] using h'
  · intro seg t h
    have h' := List.find?_some h
    simpa [tokenOk, Bool.and_eq_true, Bool.not_eq_true', bne_iff_ne] using h'

/-- Witness for C4 amended: the forward scan of scenario A selects the
clean token `hello`, and the emitted caption text of the noisy-text
document is the trimmed text of its segment. -/
theorem C4_noise_excluded_from_timing_only_witness :
    (hasMarker helloTok.Text = false ∧ helloTok.Text ≠ "") ∧
      ∃ seg, seg ∈ [noisyTextSeg] ∧
        ("[_TT_500] hi" : String) = trimSpace seg.Text :=
  ⟨C4_noise_excluded_from_timing_only.1 segA helloTok (by decide),
    C4_noise_excluded_from_timing_only.2.2 0 [noisyTextSeg]
      { index := 1, range := { From := "a", To := "b" },
        text := "[_TT_500] hi" } (by decide)⟩
